import Mathlib

/-!
Verification of the Allspace image-to-3D pipeline.

Shallow embedding of the Python sources:
  * `src/backend/models/depth_estimator.py`  (class DepthEstimator)
  * `src/backend/utils/mesh_generator.py`    (class MeshGenerator)
  * `src/backend/utils/procedural_generator.py` (class ProceduralGenerator)

Images and depth maps are embedded as row-major rectangular grids
(`List (List _)`); pixel intensities are naturals in 0..255 and depth
values are rationals.  OpenCV primitives (GaussianBlur, Canny,
distanceTransform, HoughLinesP, findContours, approxPolyDP) are external
library calls, not repository code; they enter the embedding as explicit
function or data parameters, while every piece of control flow,
arithmetic and threshold logic written in the repository is translated
directly.
-/

namespace Allspace

/-- A row-major grid of values (a numpy 2-d array). -/
abbrev Grid (α : Type) : Type := List (List α)

/-- All cells of a grid, row-major (numpy `flatten`). -/
def Grid.cells {α : Type} (g : Grid α) : List α := g.flatten

/-- Number of cells (numpy `size`). -/
def gridSize {α : Type} (g : Grid α) : Nat := g.cells.length

/-- Map a function over every cell. -/
def gridMap {α β : Type} (f : α → β) (g : Grid α) : Grid β :=
  g.map (List.map f)

/-- Minimum of a list of rationals, 0 for the empty list (numpy `min`). -/
def listMin (l : List ℚ) : ℚ :=
  match l with
  | [] => 0
  | x :: xs => xs.foldl min x

/-- Maximum of a list of rationals, 0 for the empty list (numpy `max`). -/
def listMax (l : List ℚ) : ℚ :=
  match l with
  | [] => 0
  | x :: xs => xs.foldl max x

/-- Embeds `array.min()` over a grid. -/
def gridMin (g : Grid ℚ) : ℚ := listMin g.cells

/-- Embeds `array.max()` over a grid. -/
def gridMax (g : Grid ℚ) : ℚ := listMax g.cells

/-- Embeds `DepthEstimator._normalize` (depth_estimator.py lines 335-342):
normalize to the 0-1 range when the array has spread, otherwise divide by
255 when the flat value exceeds 1, otherwise return the array unchanged. -/
def normalize (g : Grid ℚ) : Grid ℚ :=
  let min_val := gridMin g
  let max_val := gridMax g
  if min_val < max_val then
    gridMap (fun a => (a - min_val) / (max_val - min_val)) g
  else if 1 < max_val then
    gridMap (fun a => a / 255) g
  else
    g

/-- Scene categories returned by `DepthEstimator._detect_scene_type`. -/
inductive SceneType : Type
  | floor_plan
  | indoor_room
  | outdoor_landscape
  | portrait
  | general
deriving DecidableEq

/-- Sum of the cells of a natural-valued grid. -/
def sumCells (g : Grid ℕ) : ℕ := (g.cells.map id).sum

/-- Sum of squared cells. -/
def sumSqCells (g : Grid ℕ) : ℕ := (g.cells.map (fun x => x * x)).sum

/-- Embeds `np.mean(img_gray)` (depth_estimator.py line 138). -/
def avg_brightness (g : Grid ℕ) : ℚ := (sumCells g : ℚ) / (gridSize g : ℚ)

/-- The square of `np.std(img_gray)` (depth_estimator.py line 139):
mean of squares minus square of mean.  The code compares
`std_brightness > 40`; squaring both sides, the embedding compares this
variance against 1600. -/
def var_brightness (g : Grid ℕ) : ℚ :=
  (sumSqCells g : ℚ) / (gridSize g : ℚ) - avg_brightness g * avg_brightness g

/-- Embeds `dark_pixels / total_pixels` with `img_gray < 100` (lines 142-146). -/
def dark_frac (g : Grid ℕ) : ℚ :=
  ((g.cells.countP (fun x => decide (x < 100)) : ℚ)) / (gridSize g : ℚ)

/-- Embeds `light_pixels / total_pixels` with `img_gray > 200` (lines 143-147). -/
def light_frac (g : Grid ℕ) : ℚ :=
  ((g.cells.countP (fun x => decide (200 < x)) : ℚ)) / (gridSize g : ℚ)

/-- Embeds `avg_brightness > 180` (line 153). -/
def is_mostly_white (g : Grid ℕ) : Bool := decide (180 < avg_brightness g)

/-- Embeds `std_brightness > 40` (line 154), in squared form. -/
def is_high_contrast (g : Grid ℕ) : Bool := decide (1600 < var_brightness g)

/-- Embeds `dark_ratio > 0.03 and dark_ratio < 0.4` (line 155). -/
def has_significant_dark_lines (g : Grid ℕ) : Bool :=
  decide (3 / 100 < dark_frac g) && decide (dark_frac g < 2 / 5)

/-- Embeds `light_ratio > 0.4` (line 156). -/
def has_significant_white_space (g : Grid ℕ) : Bool :=
  decide (2 / 5 < light_frac g)

/-- Embeds `(horizontal_lines + vertical_lines) > 8` (line 173).  The two line
counts come from the HoughLinesP angle-classification loop, whose line
segments are produced by OpenCV; they are parameters of the embedding. -/
def has_many_straight_lines (hl vl : ℕ) : Bool := decide (8 < hl + vl)

/-- Embeds `conditions_met` (lines 177-182): the number of the four floor-plan
conditions that hold. -/
def conditions_met (g : Grid ℕ) (hl vl : ℕ) : ℕ :=
  ([is_mostly_white g && has_significant_white_space g,
    is_high_contrast g,
    has_significant_dark_lines g,
    has_many_straight_lines hl vl].map (fun b => if b then 1 else 0)).sum

/-- Embeds `DepthEstimator._detect_scene_type` (lines 131-210).  `hl`/`vl` are
the horizontal/vertical line counts, `avg_sat` is `np.mean(saturation)`
over the OpenCV HSV conversion and `center_contrast` is the centre-minus
border brightness difference; the latter two are image-derived inputs of
the embedding, consumed only by the non-floor-plan branches exactly as in
lines 203-210. -/
def detect_scene_type (g : Grid ℕ) (hl vl : ℕ) (avg_sat center_contrast : ℚ) :
    SceneType :=
  if 3 ≤ conditions_met g hl vl then
    SceneType.floor_plan
  else if 5 < hl ∧ 3 < vl then
    SceneType.indoor_room
  else if 100 < avg_sat ∧ hl < 3 then
    SceneType.outdoor_landscape
  else if 30 < center_contrast then
    SceneType.portrait
  else
    SceneType.general

/-- Python runtime errors that the embedded fragments can raise. -/
inductive PyErr : Type
  | unboundLocalError
deriving DecidableEq

/-- Models `del name` on a Python local: raises `UnboundLocalError` when the
local was never assigned on the executed path. -/
def py_del {α : Type} (x : Option α) : Except PyErr Unit :=
  match x with
  | some _ => Except.ok ()
  | none => Except.error PyErr.unboundLocalError

/-- Embeds `np.ones_like(depth_map) * c`. -/
def onesLike (g : Grid ℚ) (c : ℚ) : Grid ℚ := gridMap (fun _ => c) g

/-- Embeds `0.2 + depth_map * 0.6` (depth_estimator.py line 113). -/
def remap_band (g : Grid ℚ) : Grid ℚ := gridMap (fun d => 1 / 5 + d * (3 / 5)) g

/-- Embeds `DepthEstimator.estimate_depth` from the scene branch onward
(depth_estimator.py lines 64-125).

`fused` is the value of `depth_map` just before the final per-branch
`self._normalize(depth_map)` call (line 68 for the floor-plan branch,
line 103 and its siblings otherwise): the cue computation and Gaussian
smoothing producing it are OpenCV work abstracted into this input.
`edges`, `dist` and `edge_depth` are the Canny / distance-transform
results; in the Python function these locals are assigned ONLY on the
non-floor-plan branches (lines 72-100), which the embedding records in
`locals?`.  `blur11` is `cv2.GaussianBlur` with an 11x11 kernel
(line 116).

Lines 106-116 pick the returned depth range and the confidence map;
line 119 then executes `del edges, dist, edge_depth, ...`, which raises
`UnboundLocalError` whenever one of those names is unbound — which is the
case precisely on the floor-plan branch.  The `except` clause (line 129)
re-raises, so the error propagates. -/
def estimate_depth (blur11 : Grid ℚ → Grid ℚ) (scene : SceneType)
    (fused edges dist edge_depth : Grid ℚ) : Except PyErr (Grid ℚ × Grid ℚ) :=
  let depth0 := normalize fused
  let locals? : Option (Grid ℚ × Grid ℚ × Grid ℚ) :=
    if scene = SceneType.floor_plan then none else some (edges, dist, edge_depth)
  let result : Grid ℚ × Grid ℚ :=
    if scene = SceneType.floor_plan then
      (depth0, onesLike depth0 (19 / 20))
    else
      (remap_band depth0,
        blur11 (gridMap (fun e => 1 - e * (3 / 10)) (normalize edges)))
  match py_del locals? with
  | Except.ok _ => Except.ok result
  | Except.error e => Except.error e

/-- C3: the scene classifier returns floor_plan exactly when at least 3 of
the 4 conditions hold: (1) mostly-white background (brightness mean over
180 and light-pixel ratio over 0.4), (2) brightness standard deviation
over 40, (3) dark-pixel ratio strictly between 0.03 and 0.4, (4) combined
horizontal-plus-vertical line count over 8 — for every input image and
every line-detector outcome. -/
theorem detect_scene_type_floor_plan_iff (g : Grid ℕ) (hl vl : ℕ)
    (avg_sat center_contrast : ℚ) :
    detect_scene_type g hl vl avg_sat center_contrast = SceneType.floor_plan ↔
      3 ≤ conditions_met g hl vl := by
  unfold detect_scene_type
  split_ifs with h1 h2 h3 h4 <;> simp_all

/-! ### Supporting lemmas about grid minima, maxima and normalization -/

theorem foldl_min_le_init (xs : List ℚ) (a : ℚ) : xs.foldl min a ≤ a := by
  induction xs generalizing a with
  | nil => exact le_refl a
  | cons y ys ih =>
      exact le_trans (ih (min a y)) (min_le_left a y)

theorem foldl_min_le_mem (xs : List ℚ) (a x : ℚ) (hx : x ∈ xs) :
    xs.foldl min a ≤ x := by
  induction xs generalizing a with
  | nil => cases hx
  | cons y ys ih =>
      rcases List.mem_cons.mp hx with h | h
      · subst h
        exact le_trans (foldl_min_le_init ys (min a x)) (min_le_right a x)
      · exact ih (min a y) h

theorem init_le_foldl_max (xs : List ℚ) (a : ℚ) : a ≤ xs.foldl max a := by
  induction xs generalizing a with
  | nil => exact le_refl a
  | cons y ys ih =>
      exact le_trans (le_max_left a y) (ih (max a y))

theorem mem_le_foldl_max (xs : List ℚ) (a x : ℚ) (hx : x ∈ xs) :
    x ≤ xs.foldl max a := by
  induction xs generalizing a with
  | nil => cases hx
  | cons y ys ih =>
      rcases List.mem_cons.mp hx with h | h
      · subst h
        exact le_trans (le_max_right a x) (init_le_foldl_max ys (max a x))
      · exact ih (max a y) h

theorem listMin_le_of_mem {l : List ℚ} {x : ℚ} (hx : x ∈ l) : listMin l ≤ x := by
  cases l with
  | nil => cases hx
  | cons y ys =>
      rcases List.mem_cons.mp hx with h | h
      · subst h; exact foldl_min_le_init ys x
      · exact foldl_min_le_mem ys y x h

theorem le_listMax_of_mem {l : List ℚ} {x : ℚ} (hx : x ∈ l) : x ≤ listMax l := by
  cases l with
  | nil => cases hx
  | cons y ys =>
      rcases List.mem_cons.mp hx with h | h
      · subst h; exact init_le_foldl_max ys x
      · exact mem_le_foldl_max ys y x h

theorem cells_gridMap {α β : Type} (f : α → β) (g : Grid α) :
    (gridMap f g).cells = g.cells.map f := by
  simp [gridMap, Grid.cells, List.map_flatten]

theorem foldl_min_map_mono (f : ℚ → ℚ) (hf : Monotone f) (xs : List ℚ) (a : ℚ) :
    (xs.map f).foldl min (f a) = f (xs.foldl min a) := by
  induction xs generalizing a with
  | nil => rfl
  | cons y ys ih =>
      simp only [List.map_cons, List.foldl_cons]
      rw [← hf.map_min, ih]

theorem foldl_max_map_mono (f : ℚ → ℚ) (hf : Monotone f) (xs : List ℚ) (a : ℚ) :
    (xs.map f).foldl max (f a) = f (xs.foldl max a) := by
  induction xs generalizing a with
  | nil => rfl
  | cons y ys ih =>
      simp only [List.map_cons, List.foldl_cons]
      rw [← hf.map_max, ih]

theorem listMin_map_mono (f : ℚ → ℚ) (hf : Monotone f) (l : List ℚ)
    (hl : l ≠ []) : listMin (l.map f) = f (listMin l) := by
  cases l with
  | nil => exact absurd rfl hl
  | cons y ys => simpa [listMin] using foldl_min_map_mono f hf ys y

theorem listMax_map_mono (f : ℚ → ℚ) (hf : Monotone f) (l : List ℚ)
    (hl : l ≠ []) : listMax (l.map f) = f (listMax l) := by
  cases l with
  | nil => exact absurd rfl hl
  | cons y ys => simpa [listMax] using foldl_max_map_mono f hf ys y

theorem cells_ne_nil_of_spread {g : Grid ℚ} (h : gridMin g < gridMax g) :
    g.cells ≠ [] := by
  intro hnil
  rw [gridMin, gridMax, hnil] at h
  exact lt_irrefl _ h

/-- Values of `_normalize` stay in [0,1] whenever the input values stay in
the pixel range [0,255]. -/
theorem normalize_cells_mem (g : Grid ℚ)
    (hb : ∀ x ∈ g.cells, 0 ≤ x ∧ x ≤ 255) :
    ∀ x ∈ (normalize g).cells, 0 ≤ x ∧ x ≤ 1 := by
  intro x hx
  unfold normalize at hx
  by_cases hlt : gridMin g < gridMax g
  · rw [if_pos hlt, cells_gridMap, List.mem_map] at hx
    obtain ⟨y, hy, rfl⟩ := hx
    have hmn : gridMin g ≤ y := listMin_le_of_mem hy
    have hmx : y ≤ gridMax g := le_listMax_of_mem hy
    have hpos : (0 : ℚ) < gridMax g - gridMin g := by linarith
    constructor
    · exact div_nonneg (by linarith) (le_of_lt hpos)
    · rw [div_le_one hpos]; linarith
  · rw [if_neg hlt] at hx
    by_cases h1 : (1 : ℚ) < gridMax g
    · rw [if_pos h1, cells_gridMap, List.mem_map] at hx
      obtain ⟨y, hy, rfl⟩ := hx
      obtain ⟨hy0, hy255⟩ := hb y hy
      constructor
      · positivity
      · rw [div_le_one (by norm_num)]; exact hy255
    · rw [if_neg h1] at hx
      obtain ⟨hy0, _⟩ := hb x hx
      refine ⟨hy0, ?_⟩
      exact le_trans (le_listMax_of_mem hx) (not_lt.mp h1)

/-- When the input has spread, `_normalize` attains exactly the minimum 0
and the maximum 1. -/
theorem normalize_min_max (g : Grid ℚ) (h : gridMin g < gridMax g) :
    gridMin (normalize g) = 0 ∧ gridMax (normalize g) = 1 := by
  have hpos : (0 : ℚ) < gridMax g - gridMin g := by linarith
  have hmono : Monotone (fun a => (a - gridMin g) / (gridMax g - gridMin g)) := by
    intro a b hab
    exact (div_le_div_iff_of_pos_right hpos).mpr (by linarith)
  have hne := cells_ne_nil_of_spread h
  unfold normalize
  rw [if_pos h]
  constructor
  · rw [gridMin, cells_gridMap, listMin_map_mono _ hmono _ hne]
    show (gridMin g - gridMin g) / (gridMax g - gridMin g) = 0
    simp
  · rw [gridMax, cells_gridMap, listMax_map_mono _ hmono _ hne]
    show (gridMax g - gridMin g) / (gridMax g - gridMin g) = 1
    exact div_self (ne_of_gt hpos)

/-- The map `remap_band` is the affine map d -> 0.2 + 0.6 d on every cell; on a
field attaining 0 and 1 it attains exactly 0.2 and 0.8. -/
theorem remap_band_min_max (g : Grid ℚ) (hne : g.cells ≠ []) :
    gridMin (remap_band g) = 1 / 5 + gridMin g * (3 / 5) ∧
      gridMax (remap_band g) = 1 / 5 + gridMax g * (3 / 5) := by
  have hmono : Monotone (fun d : ℚ => 1 / 5 + d * (3 / 5)) := by
    intro a b hab
    have : a * (3 / 5) ≤ b * (3 / 5) := by nlinarith
    linarith
  constructor
  · rw [gridMin, remap_band, cells_gridMap, listMin_map_mono _ hmono _ hne]; rfl
  · rw [gridMax, remap_band, cells_gridMap, listMax_map_mono _ hmono _ hne]; rfl

theorem normalize_cells_ne_nil {g : Grid ℚ} (h : g.cells ≠ []) :
    (normalize g).cells ≠ [] := by
  by_cases h1 : gridMin g < gridMax g
  · simp [normalize, h1, cells_gridMap, h]
  · by_cases h2 : (1 : ℚ) < gridMax g
    · simp [normalize, h1, h2, cells_gridMap, h]
    · simpa [normalize, h1, h2] using h

/-- C2: on the floor-plan branch `estimate_depth` always raises: line 119
executes `del edges, dist, edge_depth` but those locals are only assigned
on the non-floor-plan branches (lines 72-100), so Python raises
`UnboundLocalError`, which the `except` clause re-raises (line 129).  The
0.95-confidence map and the wall/floor depth are computed (lines 106-110)
but discarded by the raise. -/
theorem estimate_depth_floor_plan_raises (blur11 : Grid ℚ → Grid ℚ)
    (fused edges dist edge_depth : Grid ℚ) :
    estimate_depth blur11 SceneType.floor_plan fused edges dist edge_depth
      = Except.error PyErr.unboundLocalError := rfl

/-- C4: whenever the scene type is not floor_plan, every returned depth
value lies in the band [0.2, 0.8]: line 113 remaps the normalized depth by
d -> 0.2 + 0.6 d, and `_normalize` keeps values in [0,1] for any fused
field whose values lie in the pixel range [0, 255]. -/
theorem estimate_depth_band (blur11 : Grid ℚ → Grid ℚ) (scene : SceneType)
    (fused edges dist edge_depth : Grid ℚ)
    (hs : scene ≠ SceneType.floor_plan)
    (hb : ∀ x ∈ fused.cells, 0 ≤ x ∧ x ≤ 255)
    (d c : Grid ℚ)
    (h : estimate_depth blur11 scene fused edges dist edge_depth
          = Except.ok (d, c)) :
    ∀ x ∈ d.cells, 1 / 5 ≤ x ∧ x ≤ 4 / 5 := by
  simp only [estimate_depth, if_neg hs, py_del, Except.ok.injEq, Prod.mk.injEq] at h
  obtain ⟨hd, -⟩ := h
  subst hd
  intro x hx
  rw [remap_band, cells_gridMap, List.mem_map] at hx
  obtain ⟨y, hy, rfl⟩ := hx
  obtain ⟨h0, h1⟩ := normalize_cells_mem fused hb y hy
  constructor <;> nlinarith

theorem estimate_depth_band_witness :
    (∀ x ∈ Grid.cells ([[(0 : ℚ), 255], [100, 30]] : Grid ℚ), 0 ≤ x ∧ x ≤ 255) ∧
      (∀ x ∈ Grid.cells (remap_band (normalize ([[(0 : ℚ), 255], [100, 30]] : Grid ℚ))),
        1 / 5 ≤ x ∧ x ≤ 4 / 5) :=
  ⟨by norm_num [Grid.cells],
    estimate_depth_band (fun g => g) SceneType.general
      [[(0 : ℚ), 255], [100, 30]] [[0, 0], [0, 0]] [[0, 0], [0, 0]] [[0, 0], [0, 0]]
      (by decide) (by norm_num [Grid.cells]) _ _ rfl⟩

/-- C1 counterexample: the code contains no degenerate-range check and no
gradient substitution.  On the general-scene path with a constant fused
depth field, `estimate_depth` returns that constant field (remapped to the
constant 1/2), whose range is 0 < 0.01 — no top-to-bottom gradient is
substituted, refuting the claimed range ≥ 0.01 guarantee. -/
theorem estimate_depth_no_gradient_fallback :
    estimate_depth (fun g => g) SceneType.general
        [[(1 : ℚ) / 2, 1 / 2], [1 / 2, 1 / 2]]
        [[0, 0], [0, 0]] [[0, 0], [0, 0]] [[0, 0], [0, 0]]
      = Except.ok ([[(1 : ℚ) / 2, 1 / 2], [1 / 2, 1 / 2]], [[1, 1], [1, 1]]) ∧
    gridMax [[(1 : ℚ) / 2, 1 / 2], [1 / 2, 1 / 2]]
        - gridMin [[(1 : ℚ) / 2, 1 / 2], [1 / 2, 1 / 2]] < 1 / 100 := by
  constructor
  · norm_num [estimate_depth, normalize, remap_band, onesLike, gridMap,
      Grid.cells, gridMin, gridMax, listMin, listMax, py_del, min_def, max_def]
    rfl
  · norm_num [gridMax, gridMin, listMax, listMin, Grid.cells, min_def, max_def]

/-- C1 (amended): whenever `estimate_depth` returns at all (the floor-plan
branch raises, see C2) and the values of the fused field lie in the pixel range
[0, 255], every returned depth value lies in [0,1]; when the fused field
is non-constant the returned range is exactly 0.6 (so at least 0.01), but
a constant fused field yields a constant output — there is no degenerate
range fallback. -/
theorem estimate_depth_ok_bounds (blur11 : Grid ℚ → Grid ℚ) (scene : SceneType)
    (fused edges dist edge_depth : Grid ℚ)
    (hb : ∀ x ∈ fused.cells, 0 ≤ x ∧ x ≤ 255)
    (d c : Grid ℚ)
    (h : estimate_depth blur11 scene fused edges dist edge_depth
          = Except.ok (d, c)) :
    (∀ x ∈ d.cells, 0 ≤ x ∧ x ≤ 1) ∧
      (gridMin fused < gridMax fused → gridMax d - gridMin d = 3 / 5) := by
  by_cases hs : scene = SceneType.floor_plan
  · subst hs
    simp [estimate_depth, py_del] at h
  · simp only [estimate_depth, if_neg hs, py_del, Except.ok.injEq,
      Prod.mk.injEq] at h
    obtain ⟨hd, -⟩ := h
    subst hd
    constructor
    · intro x hx
      rw [remap_band, cells_gridMap, List.mem_map] at hx
      obtain ⟨y, hy, rfl⟩ := hx
      obtain ⟨h0, h1⟩ := normalize_cells_mem fused hb y hy
      constructor <;> nlinarith
    · intro hspread
      obtain ⟨hmin, hmax⟩ := normalize_min_max fused hspread
      have hne : (normalize fused).cells ≠ [] :=
        normalize_cells_ne_nil (cells_ne_nil_of_spread hspread)
      obtain ⟨hmn, hmx⟩ := remap_band_min_max (normalize fused) hne
      rw [hmn, hmx, hmin, hmax]
      norm_num

theorem estimate_depth_ok_bounds_witness :
    (∀ x ∈ Grid.cells ([[(0 : ℚ), 255], [100, 30]] : Grid ℚ), 0 ≤ x ∧ x ≤ 255) ∧
      ((∀ x ∈ Grid.cells (remap_band (normalize ([[(0 : ℚ), 255], [100, 30]] : Grid ℚ))),
          0 ≤ x ∧ x ≤ 1) ∧
        (gridMin ([[(0 : ℚ), 255], [100, 30]] : Grid ℚ)
            < gridMax ([[(0 : ℚ), 255], [100, 30]] : Grid ℚ) →
          gridMax (remap_band (normalize ([[(0 : ℚ), 255], [100, 30]] : Grid ℚ)))
              - gridMin (remap_band (normalize ([[(0 : ℚ), 255], [100, 30]] : Grid ℚ)))
            = 3 / 5)) :=
  ⟨by norm_num [Grid.cells],
    estimate_depth_ok_bounds (fun g => g) SceneType.general
      [[(0 : ℚ), 255], [100, 30]] [[0, 0], [0, 0]] [[0, 0], [0, 0]] [[0, 0], [0, 0]]
      (by norm_num [Grid.cells]) _ _ rfl⟩

/-- C9: scene classification is deterministic — it reads the image only
through its photometric statistics (brightness mean, variance, dark and
light pixel fractions) and the line-detection and saturation/centering
inputs: any two runs agreeing on those agree on the SceneType.  (The OpenCV
HoughLinesP implementation seeds a local RNG with a fixed constant, so identical pixel
content yields identical line counts.) -/
theorem detect_scene_type_deterministic (g₁ g₂ : Grid ℕ)
    (hl₁ vl₁ hl₂ vl₂ : ℕ) (s₁ s₂ c₁ c₂ : ℚ)
    (ha : avg_brightness g₁ = avg_brightness g₂)
    (hv : var_brightness g₁ = var_brightness g₂)
    (hd : dark_frac g₁ = dark_frac g₂)
    (hlf : light_frac g₁ = light_frac g₂)
    (hh : hl₁ = hl₂) (hvl : vl₁ = vl₂) (hs : s₁ = s₂) (hc : c₁ = c₂) :
    detect_scene_type g₁ hl₁ vl₁ s₁ c₁ = detect_scene_type g₂ hl₂ vl₂ s₂ c₂ := by
  subst hh; subst hvl; subst hs; subst hc
  unfold detect_scene_type conditions_met is_mostly_white is_high_contrast
    has_significant_dark_lines has_significant_white_space
  rw [ha, hv, hd, hlf]

theorem detect_scene_type_deterministic_witness :
    (avg_brightness ([[10, 250], [250, 10]] : Grid ℕ)
        = avg_brightness ([[250, 10], [10, 250]] : Grid ℕ) ∧
      var_brightness ([[10, 250], [250, 10]] : Grid ℕ)
        = var_brightness ([[250, 10], [10, 250]] : Grid ℕ) ∧
      dark_frac ([[10, 250], [250, 10]] : Grid ℕ)
        = dark_frac ([[250, 10], [10, 250]] : Grid ℕ) ∧
      light_frac ([[10, 250], [250, 10]] : Grid ℕ)
        = light_frac ([[250, 10], [10, 250]] : Grid ℕ)) ∧
    detect_scene_type ([[10, 250], [250, 10]] : Grid ℕ) 9 0 0 0
      = detect_scene_type ([[250, 10], [10, 250]] : Grid ℕ) 9 0 0 0 :=
  ⟨⟨by norm_num [avg_brightness, sumCells, gridSize, Grid.cells],
    by norm_num [var_brightness, avg_brightness, sumCells, sumSqCells, gridSize,
      Grid.cells],
    by norm_num [dark_frac, gridSize, Grid.cells, List.countP_cons],
    by norm_num [light_frac, gridSize, Grid.cells, List.countP_cons]⟩,
    detect_scene_type_deterministic [[10, 250], [250, 10]] [[250, 10], [10, 250]]
      9 0 9 0 0 0 0 0
      (by norm_num [avg_brightness, sumCells, gridSize, Grid.cells])
      (by norm_num [var_brightness, avg_brightness, sumCells, sumSqCells, gridSize,
        Grid.cells])
      (by norm_num [dark_frac, gridSize, Grid.cells, List.countP_cons])
      (by norm_num [light_frac, gridSize, Grid.cells, List.countP_cons])
      rfl rfl rfl rfl⟩

/-! ### IEEE-754 binary64 rounding

The mesh-path test of `create_mesh_from_depth` (mesh_generator.py
line 43) and the resize step of `estimate_depth` (depth_estimator.py
lines 49-51) compare and truncate float64 values, and the claims under
check live exactly at the rounding boundary, so these two fragments are
embedded with exact binary64 semantics: a double is represented by its
exact rational value, and every arithmetic result is rounded to the
53-bit-mantissa grid with round to nearest, ties to even, with gradual
underflow (grid spacing 2^(-1074)) below 2^(-1022).  Overflow is not
modelled — every value arising in these fragments is below 2^10.  numpy
and CPython convert the integer operands to doubles before dividing,
which is exact for integers below 2^53 (the pixel counts and dimensions
in play). -/

/-- Round a rational to the nearest integer, ties to even (the IEEE-754
default rounding). -/
def rne (x : ℚ) : ℤ :=
  if x - ⌊x⌋ < 1 / 2 then ⌊x⌋
  else if 1 / 2 < x - ⌊x⌋ then ⌊x⌋ + 1
  else if ⌊x⌋ % 2 = 0 then ⌊x⌋ else ⌊x⌋ + 1

/-- Floor of the base-2 logarithm of a positive rational, computed from
the bit lengths of numerator and denominator. -/
def ratExp2 (q : ℚ) : ℤ :=
  if 2 ^ ((Nat.log2 q.num.natAbs : ℤ) - (Nat.log2 q.den : ℤ)) ≤ q then
    (Nat.log2 q.num.natAbs : ℤ) - (Nat.log2 q.den : ℤ)
  else
    (Nat.log2 q.num.natAbs : ℤ) - (Nat.log2 q.den : ℤ) - 1

/-- Round a rational to the binary64 grid: the unit in the last place is
2^(exponent - 52) in the normal range and 2^(-1074) below it. -/
def fl53 (q : ℚ) : ℚ :=
  if q = 0 then 0
  else rne (q / 2 ^ (max (ratExp2 |q|) (-1022) - 52)) *
    2 ^ (max (ratExp2 |q|) (-1022) - 52)

theorem fl53_zero : fl53 0 = 0 := by
  unfold fl53
  rw [if_pos rfl]

theorem rne_sub_le (x : ℚ) : |(rne x : ℚ) - x| ≤ 1 / 2 := by
  have h1 : (⌊x⌋ : ℚ) ≤ x := Int.floor_le x
  have h2 : x < ⌊x⌋ + 1 := Int.lt_floor_add_one x
  unfold rne
  split_ifs with ha hb hc <;> rw [abs_le] <;> constructor <;> push_cast <;> linarith

theorem rne_nonneg (x : ℚ) (hx : 0 ≤ x) : 0 ≤ rne x := by
  have h1 : (0 : ℤ) ≤ ⌊x⌋ := Int.floor_nonneg.mpr hx
  unfold rne
  split_ifs <;> omega

theorem rne_eq_low (x : ℚ) (n : ℤ) (h1 : (n : ℚ) ≤ x) (h2 : x < n + 1 / 2) :
    rne x = n := by
  have hfl : ⌊x⌋ = n := by
    rw [Int.floor_eq_iff]
    exact ⟨h1, by linarith⟩
  unfold rne
  rw [hfl, if_pos (by linarith)]

theorem rne_eq_high (x : ℚ) (n : ℤ) (h1 : (n : ℚ) + 1 / 2 < x)
    (h2 : x < n + 1) : rne x = n + 1 := by
  have hfl : ⌊x⌋ = n := by
    rw [Int.floor_eq_iff]
    exact ⟨by linarith, by linarith⟩
  unfold rne
  rw [hfl, if_neg (by linarith), if_pos (by linarith)]

theorem rne_eq_tie_up (x : ℚ) (n : ℤ) (hx : x = (n : ℚ) + 1 / 2)
    (hodd : n % 2 = 1) : rne x = n + 1 := by
  have hfl : ⌊x⌋ = n := by
    rw [Int.floor_eq_iff]
    constructor <;> linarith
  unfold rne
  rw [hfl, if_neg (by linarith), if_neg (by linarith),
    if_neg (by omega)]

theorem exp2_bracket (x A B : ℚ) (la lb : ℤ) (hB : 0 < B)
    (hAB : A = x * B)
    (hA1 : (2 : ℚ) ^ la ≤ A) (hA2 : A < 2 ^ (la + 1))
    (hB1 : (2 : ℚ) ^ lb ≤ B) (hB2 : B < 2 ^ (lb + 1)) :
    2 ^ (la - lb - 1) ≤ x ∧ x < 2 ^ (la - lb + 1) := by
  constructor
  · have key : 2 ^ (la - lb - 1) * B ≤ x * B := by
      rw [← hAB]
      calc 2 ^ (la - lb - 1) * B ≤ 2 ^ (la - lb - 1) * 2 ^ (lb + 1) :=
            mul_le_mul_of_nonneg_left hB2.le
              (zpow_pos (by norm_num : (0 : ℚ) < 2) _).le
        _ = 2 ^ la := by
            rw [← zpow_add₀ (two_ne_zero : (2 : ℚ) ≠ 0)]
            congr 1
            ring
        _ ≤ A := hA1
    exact le_of_mul_le_mul_right key hB
  · have key : x * B < 2 ^ (la - lb + 1) * B := by
      rw [← hAB]
      calc A < 2 ^ (la + 1) := hA2
        _ = 2 ^ (la - lb + 1) * 2 ^ lb := by
            rw [← zpow_add₀ (two_ne_zero : (2 : ℚ) ≠ 0)]
            congr 1
            ring
        _ ≤ 2 ^ (la - lb + 1) * B :=
            mul_le_mul_of_nonneg_left hB1
              (zpow_pos (by norm_num : (0 : ℚ) < 2) _).le
    exact lt_of_mul_lt_mul_right key hB.le

theorem ratExp2_spec (q : ℚ) (hq : 0 < q) :
    2 ^ ratExp2 q ≤ q ∧ q < 2 ^ (ratExp2 q + 1) := by
  have hnum : q.num.natAbs ≠ 0 := by
    have := Rat.num_pos.mpr hq
    omega
  have hden : q.den ≠ 0 := q.den_nz
  have hbq : (0 : ℚ) < (q.den : ℚ) := by positivity
  have hq_eq : ((q.num.natAbs : ℕ) : ℚ) = q * (q.den : ℚ) := by
    have hnn : (0 : ℤ) ≤ q.num := le_of_lt (Rat.num_pos.mpr hq)
    have h1 : ((q.num.natAbs : ℕ) : ℚ) = (q.num : ℚ) := by
      rw [← Int.cast_natCast, Int.natAbs_of_nonneg hnn]
    rw [h1]
    exact (Rat.mul_den_eq_num q).symm
  have hA1 : (2 : ℚ) ^ ((Nat.log2 q.num.natAbs : ℤ)) ≤ ((q.num.natAbs : ℕ) : ℚ) := by
    rw [zpow_natCast]
    exact_mod_cast Nat.log2_self_le hnum
  have hA2 : ((q.num.natAbs : ℕ) : ℚ) < 2 ^ ((Nat.log2 q.num.natAbs : ℤ) + 1) := by
    rw [show (Nat.log2 q.num.natAbs : ℤ) + 1 = ((Nat.log2 q.num.natAbs + 1 : ℕ) : ℤ) by
      push_cast; ring, zpow_natCast]
    exact_mod_cast Nat.lt_log2_self
  have hB1 : (2 : ℚ) ^ ((Nat.log2 q.den : ℤ)) ≤ (q.den : ℚ) := by
    rw [zpow_natCast]
    exact_mod_cast Nat.log2_self_le hden
  have hB2 : (q.den : ℚ) < 2 ^ ((Nat.log2 q.den : ℤ) + 1) := by
    rw [show (Nat.log2 q.den : ℤ) + 1 = ((Nat.log2 q.den + 1 : ℕ) : ℤ) by
      push_cast; ring, zpow_natCast]
    exact_mod_cast Nat.lt_log2_self
  have H := exp2_bracket q ((q.num.natAbs : ℕ) : ℚ) ((q.den : ℕ) : ℚ)
    (Nat.log2 q.num.natAbs : ℤ) (Nat.log2 q.den : ℤ) hbq hq_eq hA1 hA2 hB1 hB2
  unfold ratExp2
  split_ifs with hcond
  · exact ⟨hcond, H.2⟩
  · refine ⟨H.1, ?_⟩
    have hexp : ((Nat.log2 q.num.natAbs : ℤ) - (Nat.log2 q.den : ℤ) - 1) + 1
        = (Nat.log2 q.num.natAbs : ℤ) - (Nat.log2 q.den : ℤ) := by ring
    rw [hexp]
    exact not_le.mp hcond

theorem exp2_unique (q : ℚ) (e f : ℤ) (h1 : (2 : ℚ) ^ e ≤ q)
    (h2 : q < 2 ^ (e + 1)) (h3 : (2 : ℚ) ^ f ≤ q) (h4 : q < 2 ^ (f + 1)) :
    e = f := by
  by_contra h
  rcases lt_or_gt_of_ne h with hlt | hlt
  · have step : (2 : ℚ) ^ (e + 1) ≤ 2 ^ f :=
      zpow_le_zpow_right₀ (by norm_num) (by omega)
    linarith
  · have step : (2 : ℚ) ^ (f + 1) ≤ 2 ^ e :=
      zpow_le_zpow_right₀ (by norm_num) (by omega)
    linarith

theorem fl53_eq_of (q : ℚ) (e m : ℤ) (hq : 0 < q) (he : -1022 ≤ e)
    (h1 : 2 ^ e ≤ q) (h2 : q < 2 ^ (e + 1))
    (hm : rne (q / 2 ^ (e - 52)) = m) :
    fl53 q = m * 2 ^ (e - 52) := by
  have habs : |q| = q := abs_of_pos hq
  have hexp : ratExp2 q = e := by
    obtain ⟨g1, g2⟩ := ratExp2_spec q hq
    exact exp2_unique q _ e g1 g2 h1 h2
  unfold fl53
  rw [if_neg (ne_of_gt hq), habs, hexp, max_eq_left he, hm]

theorem fl53_nonneg (q : ℚ) (h0 : 0 ≤ q) : 0 ≤ fl53 q := by
  rcases eq_or_lt_of_le h0 with h | h
  · rw [← h, fl53_zero]
  · unfold fl53
    rw [if_neg (ne_of_gt h)]
    have hulp : (0 : ℚ) < 2 ^ (max (ratExp2 |q|) (-1022) - 52) :=
      zpow_pos (by norm_num) _
    have hx : (0 : ℚ) ≤ q / 2 ^ (max (ratExp2 |q|) (-1022) - 52) :=
      div_nonneg h0 hulp.le
    have := rne_nonneg _ hx
    positivity

/-- Two-sided error bound for binary64 rounding of a non-negative value:
a relative error of 2^(-53) plus an absolute 2^(-1075) covering the
subnormal range. -/
theorem fl53_bounds (q : ℚ) (h0 : 0 ≤ q) :
    q * (1 - 2 ^ (-53 : ℤ)) - 2 ^ (-1075 : ℤ) ≤ fl53 q ∧
      fl53 q ≤ q * (1 + 2 ^ (-53 : ℤ)) + 2 ^ (-1075 : ℤ) := by
  rcases eq_or_lt_of_le h0 with h | h
  · rw [← h, fl53_zero]
    have hη : (0 : ℚ) < 2 ^ (-1075 : ℤ) := zpow_pos (by norm_num) _
    exact ⟨by nlinarith [hη], by nlinarith [hη]⟩
  · have habs : |q| = q := abs_of_pos h
    obtain ⟨g1, g2⟩ := ratExp2_spec q h
    set E := max (ratExp2 q) (-1022) with hE
    have hfl : fl53 q = rne (q / 2 ^ (E - 52)) * 2 ^ (E - 52) := by
      unfold fl53
      rw [if_neg (ne_of_gt h), habs]
    have hcases : E = ratExp2 q ∧ -1022 ≤ ratExp2 q ∨ E = -1022 ∧ ratExp2 q < -1022 := by
      rcases le_or_lt (-1022 : ℤ) (ratExp2 q) with hc | hc
      · exact Or.inl ⟨max_eq_left hc, hc⟩
      · exact Or.inr ⟨max_eq_right hc.le, hc⟩
    clear_value E
    have hulp : (0 : ℚ) < 2 ^ (E - 52) := zpow_pos (by norm_num) _
    have herr : |fl53 q - q| ≤ 2 ^ (E - 52) / 2 := by
      rw [hfl, show rne (q / 2 ^ (E - 52)) * 2 ^ (E - 52) - q
          = ((rne (q / 2 ^ (E - 52)) : ℚ) - q / 2 ^ (E - 52)) * 2 ^ (E - 52) by
        field_simp, abs_mul, abs_of_pos hulp]
      calc |(rne (q / 2 ^ (E - 52)) : ℚ) - q / 2 ^ (E - 52)| * 2 ^ (E - 52)
          ≤ 1 / 2 * 2 ^ (E - 52) :=
            mul_le_mul_of_nonneg_right (rne_sub_le _) hulp.le
        _ = 2 ^ (E - 52) / 2 := by ring
    have hhalf : (2 : ℚ) ^ (E - 52) / 2 ≤ q * 2 ^ (-53 : ℤ) + 2 ^ (-1075 : ℤ) := by
      rcases hcases with ⟨hEe, hc⟩ | ⟨hEe, hc⟩
      · have : (2 : ℚ) ^ (E - 52) / 2 = 2 ^ (ratExp2 q) * 2 ^ (-53 : ℤ) := by
          rw [hEe, ← zpow_add₀ (two_ne_zero : (2 : ℚ) ≠ 0)]
          rw [show ratExp2 q + (-53 : ℤ) = ratExp2 q - 52 - 1 by ring]
          rw [zpow_sub₀ (two_ne_zero : (2 : ℚ) ≠ 0) (ratExp2 q - 52) 1]
          norm_num
        rw [this]
        have hpos : (0 : ℚ) < 2 ^ (-1075 : ℤ) := zpow_pos (by norm_num) _
        have := mul_le_mul_of_nonneg_right g1
          (zpow_pos (show (0:ℚ) < 2 by norm_num) (-53 : ℤ)).le
        linarith
      · have h1 : (2 : ℚ) ^ (E - 52) / 2 = 2 ^ (-1075 : ℤ) := by
          rw [hEe]
          rw [show (-1022 : ℤ) - 52 = -1075 + 1 by ring,
            zpow_add₀ (two_ne_zero : (2 : ℚ) ≠ 0)]
          norm_num
        rw [h1]
        have : (0 : ℚ) ≤ q * 2 ^ (-53 : ℤ) :=
          mul_nonneg h0 (zpow_pos (show (0:ℚ) < 2 by norm_num) _).le
        linarith
    rw [abs_le] at herr
    obtain ⟨he1, he2⟩ := herr
    have hmain : q - (q * 2 ^ (-53 : ℤ) + 2 ^ (-1075 : ℤ)) ≤ fl53 q ∧
        fl53 q ≤ q + (q * 2 ^ (-53 : ℤ) + 2 ^ (-1075 : ℤ)) := by
      generalize (2 : ℚ) ^ (E - 52) = u at he1 he2 hhalf
      generalize (2 : ℚ) ^ (-53 : ℤ) = a at hhalf ⊢
      generalize (2 : ℚ) ^ (-1075 : ℤ) = b at hhalf ⊢
      constructor <;> linarith
    obtain ⟨hmain1, hmain2⟩ := hmain
    constructor
    · calc q * (1 - 2 ^ (-53 : ℤ)) - 2 ^ (-1075 : ℤ)
          = q - (q * 2 ^ (-53 : ℤ) + 2 ^ (-1075 : ℤ)) := by ring
        _ ≤ fl53 q := hmain1
    · calc fl53 q ≤ q + (q * 2 ^ (-53 : ℤ) + 2 ^ (-1075 : ℤ)) := hmain2
        _ = q * (1 + 2 ^ (-53 : ℤ)) + 2 ^ (-1075 : ℤ) := by ring

/-! ### Mesh generator (src/backend/utils/mesh_generator.py) -/

/-- Embeds `np.sum((depth_map >= 0.0) & (depth_map < 0.2))` (line 41). -/
def low_depth_count (d : Grid ℚ) : ℕ :=
  d.cells.countP (fun x => decide (0 ≤ x) && decide (x < 1 / 5))

/-- Embeds `np.sum((depth_map >= 0.8) & (depth_map <= 1.0))` (line 42). -/
def high_depth_count (d : Grid ℚ) : ℕ :=
  d.cells.countP (fun x => decide (4 / 5 ≤ x) && decide (x ≤ 1))

/-- Embeds `is_floor_plan = (low_depth + high_depth) > 0.6` (line 43) with
the float64 semantics of the source: the two count / size ratios are
float64 divisions (`fl53` of the exact ratio), their sum is a float64
addition, and the comparison is against the double nearest to the literal
`0.6`, namely `fl53 (3/5)`. -/
def is_floor_plan_depth (d : Grid ℚ) : Bool :=
  decide (fl53 (3 / 5) <
    fl53 (fl53 ((low_depth_count d : ℚ) / (gridSize d : ℚ)) +
      fl53 ((high_depth_count d : ℚ) / (gridSize d : ℚ))))

/-- The mesh-construction branch chosen by `create_mesh_from_depth`
(lines 45-63). -/
inductive MeshPath : Type
  | architectural
  | heightmap
deriving DecidableEq

def mesh_path (d : Grid ℚ) : MeshPath :=
  if is_floor_plan_depth d then MeshPath.architectural else MeshPath.heightmap

/-- Claim-side count of depth values in the extreme bands
[0, 0.2) ∪ [0.8, 1.0]. -/
def extreme_band_count (d : Grid ℚ) : ℕ :=
  d.cells.countP (fun x =>
    (decide (0 ≤ x) && decide (x < 1 / 5)) ||
      (decide (4 / 5 ≤ x) && decide (x ≤ 1)))

theorem countP_or_disjoint {α : Type} (p q : α → Bool) (l : List α)
    (h : ∀ x ∈ l, ¬(p x = true ∧ q x = true)) :
    l.countP (fun x => p x || q x) = l.countP p + l.countP q := by
  induction l with
  | nil => rfl
  | cons a l ih =>
      have ha := h a (List.mem_cons_self a l)
      have ih' := ih (fun x hx => h x (List.mem_cons_of_mem a hx))
      simp only [List.countP_cons, ih']
      cases hp : p a <;> cases hq : q a <;> simp_all <;> omega

theorem fl53_three_fifths :
    fl53 (3 / 5 : ℚ) = 5404319552844595 / 9007199254740992 := by
  have h := fl53_eq_of (3 / 5 : ℚ) (-1) 5404319552844595 (by norm_num)
    (by norm_num) (by norm_num) (by norm_num) ?_
  · rw [h]
    norm_num
  · rw [show (3 / 5 : ℚ) / 2 ^ ((-1 : ℤ) - 52) = 27021597764222976 / 5 by norm_num]
    exact rne_eq_low _ _ (by norm_num) (by norm_num)

theorem fl53_two_fifths :
    fl53 (2 / 5 : ℚ) = 3602879701896397 / 9007199254740992 := by
  have h := fl53_eq_of (2 / 5 : ℚ) (-2) 7205759403792794 (by norm_num)
    (by norm_num) (by norm_num) (by norm_num) ?_
  · rw [h]
    norm_num
  · rw [show (2 / 5 : ℚ) / 2 ^ ((-2 : ℤ) - 52) = 36028797018963968 / 5 by norm_num]
    exact rne_eq_high _ 7205759403792793 (by norm_num) (by norm_num)

theorem fl53_one_fifth :
    fl53 (1 / 5 : ℚ) = 3602879701896397 / 18014398509481984 := by
  have h := fl53_eq_of (1 / 5 : ℚ) (-3) 7205759403792794 (by norm_num)
    (by norm_num) (by norm_num) (by norm_num) ?_
  · rw [h]
    norm_num
  · rw [show (1 / 5 : ℚ) / 2 ^ ((-3 : ℤ) - 52) = 36028797018963968 / 5 by norm_num]
    exact rne_eq_high _ 7205759403792793 (by norm_num) (by norm_num)

theorem fl53_point_six_double :
    fl53 (5404319552844595 / 9007199254740992 : ℚ)
      = 5404319552844595 / 9007199254740992 := by
  have h := fl53_eq_of (5404319552844595 / 9007199254740992 : ℚ) (-1)
    5404319552844595 (by norm_num) (by norm_num) (by norm_num) (by norm_num) ?_
  · rw [h]
    norm_num
  · rw [show (5404319552844595 / 9007199254740992 : ℚ) / 2 ^ ((-1 : ℤ) - 52)
        = 5404319552844595 by norm_num]
    exact rne_eq_low _ 5404319552844595 (by norm_num) (by norm_num)

theorem fl53_tie_sum :
    fl53 (10808639105689191 / 18014398509481984 : ℚ)
      = 1351079888211149 / 2251799813685248 := by
  have h := fl53_eq_of (10808639105689191 / 18014398509481984 : ℚ) (-1)
    5404319552844596 (by norm_num) (by norm_num) (by norm_num) (by norm_num) ?_
  · rw [h]
    norm_num
  · rw [show (10808639105689191 / 18014398509481984 : ℚ) / 2 ^ ((-1 : ℤ) - 52)
        = 10808639105689191 / 2 by norm_num]
    exact rne_eq_tie_up _ 5404319552844595 (by norm_num) (by norm_num)

theorem fl53_one : fl53 (1 : ℚ) = 1 := by
  have h := fl53_eq_of (1 : ℚ) 0 4503599627370496 (by norm_num)
    (by norm_num) (by norm_num) (by norm_num) ?_
  · rw [h]
    norm_num
  · rw [show (1 : ℚ) / 2 ^ ((0 : ℤ) - 52) = 4503599627370496 by norm_num]
    exact rne_eq_low _ 4503599627370496 (by norm_num) (by norm_num)

/-- C5 counterexample: at an exact 60% extreme fraction the branch
depends on float64 rounding, refuting the claimed "architectural iff at
least 60%".  A 1x5 depth map with 3 of 5 values in the high band — at
least 60% — takes the HEIGHT-MAP path, because `3/5 + 0/5` computed in
float64 equals the double `0.6` exactly and the strict `> 0.6` fails;
while a 1x5 map with 2 low + 1 high values — also exactly 60% — takes the
architectural path, because `0.4 + 0.2` in float64 rounds up (a tie,
broken to even) to strictly above the double `0.6`. -/
theorem mesh_path_at_sixty_percent :
    (mesh_path [[(9 : ℚ) / 10, 9 / 10, 9 / 10, 1 / 2, 1 / 2]] = MeshPath.heightmap ∧
      (3 : ℚ) / 5 * (gridSize [[(9 : ℚ) / 10, 9 / 10, 9 / 10, 1 / 2, 1 / 2]] : ℚ)
        ≤ (extreme_band_count [[(9 : ℚ) / 10, 9 / 10, 9 / 10, 1 / 2, 1 / 2]] : ℚ)) ∧
      (mesh_path [[(1 : ℚ) / 10, 1 / 10, 9 / 10, 1 / 2, 1 / 2]]
          = MeshPath.architectural ∧
        (extreme_band_count [[(1 : ℚ) / 10, 1 / 10, 9 / 10, 1 / 2, 1 / 2]] : ℚ)
          = (3 : ℚ) / 5 * (gridSize [[(1 : ℚ) / 10, 1 / 10, 9 / 10, 1 / 2, 1 / 2]] : ℚ)) := by
  refine ⟨⟨?_, ?_⟩, ?_, ?_⟩
  · have hlow : low_depth_count [[(9 : ℚ) / 10, 9 / 10, 9 / 10, 1 / 2, 1 / 2]] = 0 := by
      norm_num [low_depth_count, Grid.cells, List.countP_cons]
    have hhigh : high_depth_count [[(9 : ℚ) / 10, 9 / 10, 9 / 10, 1 / 2, 1 / 2]] = 3 := by
      norm_num [high_depth_count, Grid.cells, List.countP_cons]
    have hsize : gridSize [[(9 : ℚ) / 10, 9 / 10, 9 / 10, 1 / 2, 1 / 2]] = 5 := by
      norm_num [gridSize, Grid.cells]
    rw [mesh_path, is_floor_plan_depth, hlow, hhigh, hsize,
      show ((0 : ℕ) : ℚ) / ((5 : ℕ) : ℚ) = 0 by norm_num,
      show ((3 : ℕ) : ℚ) / ((5 : ℕ) : ℚ) = 3 / 5 by norm_num,
      fl53_zero, fl53_three_fifths, zero_add, fl53_point_six_double]
    norm_num
  · norm_num [extreme_band_count, gridSize, Grid.cells, List.countP_cons]
  · have hlow : low_depth_count [[(1 : ℚ) / 10, 1 / 10, 9 / 10, 1 / 2, 1 / 2]] = 2 := by
      norm_num [low_depth_count, Grid.cells, List.countP_cons]
    have hhigh : high_depth_count [[(1 : ℚ) / 10, 1 / 10, 9 / 10, 1 / 2, 1 / 2]] = 1 := by
      norm_num [high_depth_count, Grid.cells, List.countP_cons]
    have hsize : gridSize [[(1 : ℚ) / 10, 1 / 10, 9 / 10, 1 / 2, 1 / 2]] = 5 := by
      norm_num [gridSize, Grid.cells]
    rw [mesh_path, is_floor_plan_depth, hlow, hhigh, hsize,
      show ((2 : ℕ) : ℚ) / ((5 : ℕ) : ℚ) = 2 / 5 by norm_num,
      show ((1 : ℕ) : ℚ) / ((5 : ℕ) : ℚ) = 1 / 5 by norm_num,
      fl53_two_fifths, fl53_one_fifth, fl53_three_fifths,
      show (3602879701896397 / 9007199254740992 : ℚ)
          + 3602879701896397 / 18014398509481984
          = 10808639105689191 / 18014398509481984 by norm_num,
      fl53_tie_sum]
    norm_num
  · norm_num [extreme_band_count, gridSize, Grid.cells, List.countP_cons]

/-- C5 (amended): the architectural path is taken exactly when the
float64 sum of the two band fractions strictly exceeds the float64
literal 0.6, so away from the boundary the exact-fraction reading holds:
for any depth map with at most 2^53 cells, an extreme-band count of at
least 60% * (1 + 10^-12) of the cells always takes the architectural
wall-extrusion path, and one of at most 60% * (1 - 10^-12) always takes
the height-map triangulation path; exactly at 60% the branch depends on
float64 rounding (see the counterexample). -/
theorem mesh_path_float_margins (d : Grid ℚ) (hn : 0 < gridSize d)
    (_hcap : gridSize d ≤ 2 ^ 53) :
    ((3 : ℚ) / 5 * (gridSize d : ℚ) * (1 + 1 / 1000000000000)
        ≤ (extreme_band_count d : ℚ) → mesh_path d = MeshPath.architectural) ∧
      ((extreme_band_count d : ℚ)
          ≤ (3 : ℚ) / 5 * (gridSize d : ℚ) * (1 - 1 / 1000000000000) →
        mesh_path d = MeshPath.heightmap) := by
  have hnq : (0 : ℚ) < (gridSize d : ℚ) := by exact_mod_cast hn
  have hsum : extreme_band_count d = low_depth_count d + high_depth_count d := by
    refine countP_or_disjoint _ _ _ ?_
    intro z _ hz
    obtain ⟨h1, h2⟩ := hz
    simp only [Bool.and_eq_true, decide_eq_true_eq] at h1 h2
    linarith [h1.2, h2.1]
  have hx0 : (0 : ℚ) ≤ (low_depth_count d : ℚ) / (gridSize d : ℚ) := by positivity
  have hy0 : (0 : ℚ) ≤ (high_depth_count d : ℚ) / (gridSize d : ℚ) := by positivity
  have hx1 : (low_depth_count d : ℚ) / (gridSize d : ℚ) ≤ 1 := by
    rw [div_le_one hnq]
    exact_mod_cast List.countP_le_length _
  have hy1 : (high_depth_count d : ℚ) / (gridSize d : ℚ) ≤ 1 := by
    rw [div_le_one hnq]
    exact_mod_cast List.countP_le_length _
  obtain ⟨bX1, bX2⟩ := fl53_bounds _ hx0
  obtain ⟨bY1, bY2⟩ := fl53_bounds _ hy0
  have hXY0 : (0 : ℚ) ≤ fl53 ((low_depth_count d : ℚ) / (gridSize d : ℚ))
      + fl53 ((high_depth_count d : ℚ) / (gridSize d : ℚ)) :=
    add_nonneg (fl53_nonneg _ hx0) (fl53_nonneg _ hy0)
  obtain ⟨bZ1, bZ2⟩ := fl53_bounds _ hXY0
  obtain ⟨bT1, bT2⟩ := fl53_bounds (3 / 5 : ℚ) (by norm_num)
  have ha1 : (0 : ℚ) < 2 ^ (-53 : ℤ) := zpow_pos (by norm_num) _
  have ha2 : (2 : ℚ) ^ (-53 : ℤ) ≤ 1 / 1000000000000000 := by norm_num
  have hb1 : (0 : ℚ) < 2 ^ (-1075 : ℤ) := zpow_pos (by norm_num) _
  have hb2 : (2 : ℚ) ^ (-1075 : ℤ) ≤ 2 ^ (-53 : ℤ) :=
    zpow_le_zpow_right₀ (by norm_num) (by norm_num)
  have hxa := mul_le_mul_of_nonneg_right hx1 ha1.le
  have hya := mul_le_mul_of_nonneg_right hy1 ha1.le
  have hxa0 := mul_nonneg hx0 ha1.le
  have hya0 := mul_nonneg hy0 ha1.le
  have hXY3 : fl53 ((low_depth_count d : ℚ) / (gridSize d : ℚ))
      + fl53 ((high_depth_count d : ℚ) / (gridSize d : ℚ)) ≤ 3 := by
    nlinarith [bX2, bY2, hxa, hya, ha2, hb2, hb1]
  have hZa := mul_le_mul_of_nonneg_right hXY3 ha1.le
  have hZa0 := mul_nonneg hXY0 ha1.le
  have hxy : (low_depth_count d : ℚ) / (gridSize d : ℚ)
      + (high_depth_count d : ℚ) / (gridSize d : ℚ)
      = ((low_depth_count d + high_depth_count d : ℕ) : ℚ) / (gridSize d : ℚ) := by
    push_cast
    rw [div_add_div_same]
  generalize (2 : ℚ) ^ (-53 : ℤ) = a at bX1 bX2 bY1 bY2 bZ1 bZ2 bT1 bT2 ha1 ha2 hb2 hxa hya hxa0 hya0 hZa hZa0
  generalize (2 : ℚ) ^ (-1075 : ℤ) = b at bX1 bX2 bY1 bY2 bZ1 bZ2 bT1 bT2 hb1 hb2
  constructor
  · intro hA
    rw [hsum] at hA
    have hsA : (3 : ℚ) / 5 * (1 + 1 / 1000000000000)
        ≤ (low_depth_count d : ℚ) / (gridSize d : ℚ)
          + (high_depth_count d : ℚ) / (gridSize d : ℚ) := by
      rw [hxy, le_div_iff₀ hnq]
      push_cast at hA ⊢
      nlinarith [hA]
    have hcond : is_floor_plan_depth d = true := by
      rw [is_floor_plan_depth, decide_eq_true_eq]
      linarith [bT2, bZ1, bX1, bY1, hsA, hxa, hya, hxa0, hya0, hZa, hZa0,
        ha2, hb2, hb1, ha1]
    rw [mesh_path, if_pos hcond]
  · intro hB
    rw [hsum] at hB
    have hsB : (low_depth_count d : ℚ) / (gridSize d : ℚ)
          + (high_depth_count d : ℚ) / (gridSize d : ℚ)
        ≤ (3 : ℚ) / 5 * (1 - 1 / 1000000000000) := by
      rw [hxy, div_le_iff₀ hnq]
      push_cast at hB ⊢
      linarith [hB]
    have hcond : ¬(is_floor_plan_depth d = true) := by
      rw [is_floor_plan_depth, decide_eq_true_eq, not_lt]
      linarith [bT1, bZ2, bX2, bY2, hsB, hxa, hya, hxa0, hya0, hZa, hZa0,
        ha2, hb2, hb1, ha1]
    rw [mesh_path, if_neg hcond]

theorem mesh_path_float_margins_witness :
    (0 < gridSize [[(1 : ℚ), 0]] ∧ gridSize [[(1 : ℚ), 0]] ≤ 2 ^ 53) ∧
      (((3 : ℚ) / 5 * (gridSize [[(1 : ℚ), 0]] : ℚ) * (1 + 1 / 1000000000000)
          ≤ (extreme_band_count [[(1 : ℚ), 0]] : ℚ) →
          mesh_path [[(1 : ℚ), 0]] = MeshPath.architectural) ∧
        ((extreme_band_count [[(1 : ℚ), 0]] : ℚ)
            ≤ (3 : ℚ) / 5 * (gridSize [[(1 : ℚ), 0]] : ℚ) * (1 - 1 / 1000000000000) →
          mesh_path [[(1 : ℚ), 0]] = MeshPath.heightmap)) :=
  ⟨⟨by norm_num [gridSize, Grid.cells], by norm_num [gridSize, Grid.cells]⟩,
    mesh_path_float_margins _ (by norm_num [gridSize, Grid.cells])
      (by norm_num [gridSize, Grid.cells])⟩

/-- A 3-d vertex position. -/
abbrev Vec3 : Type := ℚ × ℚ × ℚ

/-- Triangle as an index triple into the vertex list. -/
abbrev Face3 : Type := ℕ × ℕ × ℕ

/-- Result of mesh construction: either an explicit vertex/face buffer or
the `trimesh.creation.box` fallback primitive of `_create_fallback_box`
(lines 309-312). -/
inductive MeshResult : Type
  | mesh (verts : List Vec3) (faces : List Face3)
  | fallback_box
deriving DecidableEq

/-- numpy stride slicing `l[::k]`. -/
def strideList {α : Type} (k : ℕ) (l : List α) : List α :=
  (l.enum.filter (fun p => p.1 % k = 0)).map Prod.snd

/-- Number of columns of a grid (`shape[1]`). -/
def cols {α : Type} (g : Grid α) : ℕ := (g.headD []).length

/-- Cell lookup `d[i][j]` with 0 default. -/
def cellAt (g : Grid ℚ) (i j : ℕ) : ℚ := (g.getD i []).getD j 0

/-- Downsample factor of `_depth_to_mesh` (lines 88-94): two successive
`if` statements, so the larger threshold wins. -/
def hm_stride (w h : ℕ) : ℕ :=
  if 1024 < max w h then 4 else if 512 < max w h then 2 else 1

/-- Downsample factor of `_architectural_mesh` (lines 182-188). -/
def arch_stride (w h : ℕ) : ℕ :=
  if 512 < max w h then 4 else if 256 < max w h then 2 else 1

/-- Embeds `depth_map[::k, ::k]` guarded by `downsample_factor > 1` (line 96). -/
def downsample (k : ℕ) (g : Grid ℚ) : Grid ℚ :=
  if 1 < k then strideList k (g.map (strideList k)) else g

/-- Embeds `MeshGenerator._depth_to_mesh` (lines 73-166): height-map path.
Vertices are the row-major flattening of the coordinate grids (numpy
`meshgrid` + `flatten`, lines 106-131): cell `n` has row `n / w` and
column `n % w`; positions are the [-1,1]-normalized x, the negated
normalized y and `depth * 0.8`.  Faces triangulate every 2x2 quad of the
grid (lines 140-153).  Vertex colors are dropped from the embedding — the
claims under check only concern positions and face indices. -/
def depth_to_mesh (d : Grid ℚ) : MeshResult :=
  let k := hm_stride (cols d) d.length
  let d' := downsample k d
  let h' := d'.length
  let w' := cols d'
  let verts := (List.range (h' * w')).map (fun n =>
    let i := n / w'
    let j := n % w'
    (((j : ℚ) - (w' : ℚ) / 2) / ((w' : ℚ) / 2),
      -(((i : ℚ) - (h' : ℚ) / 2) / ((h' : ℚ) / 2)),
      cellAt d' i j * (4 / 5)))
  let faces := ((List.range (h' - 1)).map (fun i =>
    ((List.range (w' - 1)).map (fun j =>
      let idx := i * w' + j
      [(idx, idx + 1, idx + w'), (idx + 1, idx + w' + 1, idx + w')])).flatten)).flatten
  MeshResult.mesh verts faces

/-- A 2-d contour point in pixel coordinates. -/
abbrev Pt : Type := ℤ × ℤ

/-- Wall segments of one simplified contour polygon: one per point, with
wraparound `(i + 1) % len(approx)` (lines 242-244). -/
def contour_segments (poly : List Pt) : List (Pt × Pt) :=
  (List.range poly.length).map (fun i =>
    (poly.getD i (0, 0), poly.getD ((i + 1) % poly.length) (0, 0)))

/-- The per-contour filtering of `_architectural_mesh` (lines 229-244):
skip contours shorter than 4 points, simplify with `cv2.approxPolyDP`
(abstracted as `approx_poly`), skip simplified polygons shorter than 3
points, then emit one wall segment per remaining polygon edge. -/
def wall_quads (approx_poly : List Pt → List Pt) (contours : List (List Pt)) :
    List (Pt × Pt) :=
  (contours.map (fun c =>
    if c.length < 4 then []
    else
      let approx := approx_poly c
      if approx.length < 3 then [] else contour_segments approx)).flatten

/-- The 4 vertices of one rectangular wall panel (lines 248-261): floor
edge at y = 0 and ceiling edge at y = 2.5, x/z from the normalized pixel
coordinates. -/
def quad_vertices (sx sz : ℚ) (q : Pt × Pt) : List Vec3 :=
  let x1 := (q.1.1 : ℚ) * sx - 1
  let z1 := -((q.1.2 : ℚ) * sz - 1)
  let x2 := (q.2.1 : ℚ) * sx - 1
  let z2 := -((q.2.2 : ℚ) * sz - 1)
  [(x1, 0, z1), (x2, 0, z2), (x2, 5 / 2, z2), (x1, 5 / 2, z1)]

/-- The floor quad spanning [-1,1] x [-1,1] at y = 0 (lines 272-277). -/
def floor_vertices : List Vec3 :=
  [(-1, 0, -1), (1, 0, -1), (1, 0, 1), (-1, 0, 1)]

/-- Embeds `MeshGenerator._architectural_mesh` (lines 168-307).  `contours` is
the `cv2.findContours` result on the thresholded (depth > 0.5)
downsampled wall mask and `approx_poly` is `cv2.approxPolyDP` — both are
OpenCV outputs abstracted as inputs.  Each wall segment `q` contributes 4
vertices and 2 faces based at `vertex_offset = 4 q` (lines 261-269); the
floor quad and its 2 faces are then appended unconditionally
(lines 271-286) BEFORE the `len(vertices) == 0` fallback check
(line 288), so that check can never fire. -/
def architectural_mesh (approx_poly : List Pt → List Pt)
    (contours : List (List Pt)) (d : Grid ℚ) : MeshResult :=
  let k := arch_stride (cols d) d.length
  let d' := downsample k d
  let hs := d'.length
  let ws := cols d'
  let sx : ℚ := 2 / (ws : ℚ)
  let sz : ℚ := 2 / (hs : ℚ)
  let quads := wall_quads approx_poly contours
  let wall_verts := (quads.map (quad_vertices sx sz)).flatten
  let wall_faces := ((List.range quads.length).map (fun q =>
    [(4 * q, 4 * q + 1, 4 * q + 2), (4 * q, 4 * q + 2, 4 * q + 3)])).flatten
  let verts := wall_verts ++ floor_vertices
  let base := 4 * quads.length
  let faces := wall_faces ++ [(base, base + 1, base + 2), (base, base + 2, base + 3)]
  if verts = [] then MeshResult.fallback_box else MeshResult.mesh verts faces

/-- Embeds `MeshGenerator.create_mesh_from_depth` (lines 19-71): route on the
depth-value bimodality test. -/
def create_mesh_from_depth (approx_poly : List Pt → List Pt)
    (contours : List (List Pt)) (d : Grid ℚ) : MeshResult :=
  if is_floor_plan_depth d then architectural_mesh approx_poly contours d
  else depth_to_mesh d

theorem wall_verts_length (sx sz : ℚ) (quads : List (Pt × Pt)) :
    ((quads.map (quad_vertices sx sz)).flatten).length = 4 * quads.length := by
  induction quads with
  | nil => rfl
  | cons q qs ih =>
      simp only [List.map_cons, List.flatten_cons, List.length_append, ih,
        quad_vertices, List.length_cons, List.length_nil]
      ring

theorem double_faces_length {α : Type} (n : ℕ) (f g : ℕ → α) :
    (((List.range n).map (fun q => [f q, g q])).flatten).length = 2 * n := by
  induction n with
  | zero => rfl
  | succ m ih =>
      rw [List.range_succ]
      simp only [List.map_append, List.flatten_append, List.length_append, ih,
        List.map_cons, List.map_nil, List.flatten_cons, List.flatten_nil,
        List.length_cons, List.length_nil, List.append_nil]
      ring

theorem quad_index_bound (h w i j : ℕ) (hi : i + 1 < h) (hj : j + 1 < w) :
    i * w + j + w + 1 < h * w := by
  calc i * w + j + w + 1 = i * w + w + (j + 1) := by ring
    _ < i * w + w + w := by omega
    _ = (i + 2) * w := by ring
    _ ≤ h * w := Nat.mul_le_mul_right w (by omega)

/-- C7: every face index produced by `create_mesh_from_depth` — on both
the height-map grid-triangulation path and the architectural
wall-extrusion path — is strictly less than the number of vertices of the
produced mesh. -/
theorem create_mesh_face_indices_in_range (approx_poly : List Pt → List Pt)
    (contours : List (List Pt)) (d : Grid ℚ) :
    match create_mesh_from_depth approx_poly contours d with
    | MeshResult.mesh verts faces =>
        ∀ f ∈ faces,
          f.1 < verts.length ∧ f.2.1 < verts.length ∧ f.2.2 < verts.length
    | MeshResult.fallback_box => True := by
  by_cases hfp : is_floor_plan_depth d
  · simp only [create_mesh_from_depth, if_pos hfp, architectural_mesh]
    have hne : ((wall_quads approx_poly contours).map
        (quad_vertices (2 / (cols (downsample (arch_stride (cols d) d.length) d) : ℚ))
          (2 / (((downsample (arch_stride (cols d) d.length) d).length : ℚ))))).flatten
        ++ floor_vertices ≠ [] := by
      simp [floor_vertices]
    rw [if_neg hne]
    intro f hf
    have hlen : (((wall_quads approx_poly contours).map
        (quad_vertices (2 / (cols (downsample (arch_stride (cols d) d.length) d) : ℚ))
          (2 / (((downsample (arch_stride (cols d) d.length) d).length : ℚ))))).flatten
        ++ floor_vertices).length = 4 * (wall_quads approx_poly contours).length + 4 := by
      rw [List.length_append, wall_verts_length]
      rfl
    rw [hlen]
    rcases List.mem_append.mp hf with hw | hfl
    · simp only [List.mem_flatten, List.mem_map, List.mem_range] at hw
      obtain ⟨l, ⟨q, hq, rfl⟩, hfl⟩ := hw
      simp only [List.mem_cons, List.not_mem_nil, or_false] at hfl
      rcases hfl with rfl | rfl
      · refine ⟨?_, ?_, ?_⟩ <;> · dsimp only; omega
      · refine ⟨?_, ?_, ?_⟩ <;> · dsimp only; omega
    · simp only [List.mem_cons, List.not_mem_nil, or_false] at hfl
      rcases hfl with rfl | rfl
      · refine ⟨?_, ?_, ?_⟩ <;> · dsimp only; omega
      · refine ⟨?_, ?_, ?_⟩ <;> · dsimp only; omega
  · simp only [create_mesh_from_depth, if_neg hfp, depth_to_mesh]
    intro f hf
    simp only [List.length_map, List.length_range]
    simp only [List.mem_flatten, List.mem_map, List.mem_range] at hf
    obtain ⟨l, ⟨i, hi, rfl⟩, hfl⟩ := hf
    simp only [List.mem_flatten, List.mem_map, List.mem_range] at hfl
    obtain ⟨l', ⟨j, hj, rfl⟩, hfl'⟩ := hfl
    have hb := quad_index_bound (downsample (hm_stride (cols d) d.length) d).length
      (cols (downsample (hm_stride (cols d) d.length) d)) i j (by omega) (by omega)
    simp only [List.mem_cons, List.not_mem_nil, or_false] at hfl'
    rcases hfl' with rfl | rfl <;>
    · dsimp only
      revert hb
      generalize i * cols (downsample (hm_stride (cols d) d.length) d) = m
      generalize (downsample (hm_stride (cols d) d.length) d).length *
        cols (downsample (hm_stride (cols d) d.length) d) = n
      intro hb
      refine ⟨?_, ?_, ?_⟩ <;> omega

theorem flatten_map_const_length {α : Type} (n c : ℕ) (f : ℕ → List α)
    (hf : ∀ i, (f i).length = c) :
    (((List.range n).map f).flatten).length = n * c := by
  induction n with
  | zero => simp
  | succ m ih =>
      rw [List.range_succ]
      simp only [List.map_append, List.flatten_append, List.length_append, ih,
        List.map_cons, List.map_nil, List.flatten_cons, List.flatten_nil,
        List.append_nil, hf]
      ring

/-- C6 counterexample: (i) a 1x2 depth map takes the height-map path and
yields a mesh with only 2 vertices and no faces, violating the claimed
minimum of 3 vertices and 1 face; (ii) on the architectural path with no
wall contours the result is the always-appended floor quad (4 vertices,
2 faces), not the fixed-size fallback box — that branch is unreachable. -/
theorem create_mesh_small_counterexample :
    create_mesh_from_depth (fun c => c) [] [[(1 : ℚ) / 2, 1 / 2]]
        = MeshResult.mesh [(-1, 1, 2 / 5), (0, 1, 2 / 5)] [] ∧
      create_mesh_from_depth (fun c => c) [] [[(1 : ℚ), 1], [1, 1]]
        = MeshResult.mesh floor_vertices [(0, 1, 2), (0, 2, 3)] := by
  constructor
  · norm_num [create_mesh_from_depth, is_floor_plan_depth, low_depth_count,
      high_depth_count, gridSize, Grid.cells, List.countP_cons, depth_to_mesh,
      hm_stride, downsample, cols, cellAt, List.range_succ]
    intro h
    rw [fl53_zero] at h
    norm_num [fl53_zero, fl53_three_fifths] at h
  · norm_num [create_mesh_from_depth, is_floor_plan_depth, low_depth_count,
      high_depth_count, gridSize, Grid.cells, List.countP_cons,
      architectural_mesh, arch_stride, downsample, cols, wall_quads,
      floor_vertices, List.range_succ]
    have hcond : fl53 (3 / 5) < fl53 (fl53 0 + fl53 1) := by
      rw [fl53_zero, fl53_one, zero_add, fl53_one, fl53_three_fifths]
      norm_num
    rw [if_pos hcond, if_neg (by simp)]

/-- C6 (amended): provided the (possibly downsampled) depth grid has at
least 2 rows and 2 columns, `create_mesh_from_depth` returns a mesh with
at least 3 vertices and at least 1 face, and it never returns the
fallback box: on the architectural path the unconditionally appended
floor quad already guarantees 4 + 4k vertices and 2 + 2k faces and makes
the `len(vertices) == 0` fallback branch unreachable; on the height-map
path the grid triangulation yields rows x cols >= 4 vertices and
2 (rows-1) (cols-1) >= 2 faces.  Without the 2x2 proviso the height-map
path can return 0 faces (see the counterexample). -/
theorem create_mesh_nonempty (approx_poly : List Pt → List Pt)
    (contours : List (List Pt)) (d : Grid ℚ)
    (h2 : 2 ≤ (downsample (hm_stride (cols d) d.length) d).length)
    (w2 : 2 ≤ cols (downsample (hm_stride (cols d) d.length) d)) :
    match create_mesh_from_depth approx_poly contours d with
    | MeshResult.mesh verts faces => 3 ≤ verts.length ∧ 1 ≤ faces.length
    | MeshResult.fallback_box => False := by
  by_cases hfp : is_floor_plan_depth d
  · simp only [create_mesh_from_depth, if_pos hfp, architectural_mesh]
    have hne : ((wall_quads approx_poly contours).map
        (quad_vertices (2 / (cols (downsample (arch_stride (cols d) d.length) d) : ℚ))
          (2 / (((downsample (arch_stride (cols d) d.length) d).length : ℚ))))).flatten
        ++ floor_vertices ≠ [] := by
      simp [floor_vertices]
    rw [if_neg hne]
    constructor
    · rw [List.length_append, wall_verts_length]
      have : floor_vertices.length = 4 := rfl
      omega
    · rw [List.length_append, double_faces_length]
      have : ([(4 * (wall_quads approx_poly contours).length,
          4 * (wall_quads approx_poly contours).length + 1,
          4 * (wall_quads approx_poly contours).length + 2),
        (4 * (wall_quads approx_poly contours).length,
          4 * (wall_quads approx_poly contours).length + 2,
          4 * (wall_quads approx_poly contours).length + 3)] : List Face3).length
          = 2 := rfl
      omega
  · simp only [create_mesh_from_depth, if_neg hfp, depth_to_mesh]
    constructor
    · simp only [List.length_map, List.length_range]
      have := Nat.mul_le_mul h2 w2
      omega
    · rw [flatten_map_const_length _
        (2 * (cols (downsample (hm_stride (cols d) d.length) d) - 1)) _
        (fun i => double_faces_length _ _ _)]
      have := Nat.mul_le_mul (show 1 ≤ (downsample (hm_stride (cols d) d.length) d).length - 1 by omega)
        (show 1 ≤ 2 * (cols (downsample (hm_stride (cols d) d.length) d) - 1) by omega)
      omega

theorem create_mesh_nonempty_witness :
    (2 ≤ (downsample (hm_stride (cols ([[(1 : ℚ) / 2, 1 / 2], [1 / 2, 1 / 2]] : Grid ℚ))
            ([[(1 : ℚ) / 2, 1 / 2], [1 / 2, 1 / 2]] : Grid ℚ).length)
          [[(1 : ℚ) / 2, 1 / 2], [1 / 2, 1 / 2]]).length ∧
      2 ≤ cols (downsample (hm_stride (cols ([[(1 : ℚ) / 2, 1 / 2], [1 / 2, 1 / 2]] : Grid ℚ))
            ([[(1 : ℚ) / 2, 1 / 2], [1 / 2, 1 / 2]] : Grid ℚ).length)
          [[(1 : ℚ) / 2, 1 / 2], [1 / 2, 1 / 2]])) ∧
      (match create_mesh_from_depth (fun c => c) []
          [[(1 : ℚ) / 2, 1 / 2], [1 / 2, 1 / 2]] with
        | MeshResult.mesh verts faces => 3 ≤ verts.length ∧ 1 ≤ faces.length
        | MeshResult.fallback_box => False) :=
  ⟨⟨by norm_num [downsample, hm_stride, cols],
    by norm_num [downsample, hm_stride, cols]⟩,
    create_mesh_nonempty (fun c => c) [] _
      (by norm_num [downsample, hm_stride, cols])
      (by norm_num [downsample, hm_stride, cols])⟩

/-! ### Image preprocessing (depth_estimator.py lines 45-54) -/

/-- The resize step of `estimate_depth` (lines 46-53): when the longer
dimension exceeds the 640 cap, the float64 scale `640 / max(height, width)`
is computed, each dimension is multiplied by it in float64, and `int(...)`
truncates the non-negative product toward zero, which is the floor.  Both
divisions and multiplications are correctly rounded, modelled by `fl53`. -/
def resize_dims (width height : ℕ) : ℕ × ℕ :=
  if 640 < max height width then
    (Int.toNat ⌊fl53 ((width : ℚ) * fl53 (640 / (max height width : ℚ)))⌋,
     Int.toNat ⌊fl53 ((height : ℚ) * fl53 (640 / (max height width : ℚ)))⌋)
  else (width, height)

/-- Value of the float64 scale factor for a longer dimension of 2000:
the double nearest to 640/2000 = 8/25. -/
theorem fl53_scale_2000 :
    fl53 (8 / 25 : ℚ) = 5764607523034235 / 18014398509481984 := by
  have h := fl53_eq_of (8 / 25 : ℚ) (-2) 5764607523034235 (by norm_num)
    (by norm_num) (by norm_num) (by norm_num) ?_
  · rw [h]
    norm_num
  · rw [show (8 / 25 : ℚ) / 2 ^ ((-2 : ℤ) - 52) = 144115188075855872 / 25 by
      norm_num]
    exact rne_eq_high _ 5764607523034234 (by norm_num) (by norm_num)

/-- Value of the float64 product 5 * scale for a 5 x 2000 image: the
exact product 28823037615171175 * 2^(-54) is about 1.5999, and rounding
it to a double gives about 1.6, whose floor is 1. -/
theorem fl53_width_5_2000 :
    fl53 (28823037615171175 / 18014398509481984 : ℚ)
      = 3602879701896397 / 2251799813685248 := by
  have h := fl53_eq_of (28823037615171175 / 18014398509481984 : ℚ) 0
    7205759403792794 (by norm_num) (by norm_num) (by norm_num) (by norm_num) ?_
  · rw [h]
    norm_num
  · rw [show (28823037615171175 / 18014398509481984 : ℚ) / 2 ^ ((0 : ℤ) - 52)
        = 28823037615171175 / 4 by norm_num]
    exact rne_eq_high _ 7205759403792793 (by norm_num) (by norm_num)

/-- Value of the float64 product 2000 * scale for a 5 x 2000 image: the
exact product is slightly above 640 and rounds down to exactly 640. -/
theorem fl53_height_2000 :
    fl53 (720575940379279375 / 1125899906842624 : ℚ) = 640 := by
  have h := fl53_eq_of (720575940379279375 / 1125899906842624 : ℚ) 9
    5629499534213120 (by norm_num) (by norm_num) (by norm_num) (by norm_num) ?_
  · rw [h]
    norm_num
  · rw [show (720575940379279375 / 1125899906842624 : ℚ) / 2 ^ ((9 : ℤ) - 52)
        = 720575940379279375 / 128 by norm_num]
    exact rne_eq_low _ 5629499534213120 (by norm_num) (by norm_num)

/-- C8 counterexample: a loadable 5 x 2000 image resizes to 1 x 640 under
the float64 arithmetic of the source — the aspect ratio changes from
0.0025 to 0.0015625, a 37.5 percent relative error, far beyond the
claimed 1 percent. -/
theorem resize_dims_extreme_aspect :
    resize_dims 5 2000 = (1, 640) ∧
      ¬((5 : ℚ) / 2000
          - ((resize_dims 5 2000).1 : ℚ) / ((resize_dims 5 2000).2 : ℚ)
        ≤ 1 / 100 * ((5 : ℚ) / 2000)) := by
  have hm : (max 2000 5 : ℕ) = 2000 := by norm_num
  have hval : resize_dims 5 2000 = (1, 640) := by
    rw [resize_dims, hm, if_pos (by norm_num)]
    norm_num [fl53_scale_2000, fl53_width_5_2000, fl53_height_2000]
    decide
  refine ⟨hval, ?_⟩
  rw [hval]
  norm_num

/-- Composition of the two float64 roundings in the resize: for factors
up to 2^40 and products up to 640, the doubly rounded product stays
within 10^(-9) of the exact product. -/
theorem two_round_bounds (c q : ℚ) (hc0 : 0 ≤ c) (hc : c ≤ 1099511627776)
    (hq0 : 0 ≤ q) (hcq : c * q ≤ 640) :
    c * q - 1 / 1000000000 ≤ fl53 (c * fl53 q) ∧
      fl53 (c * fl53 q) ≤ c * q + 1 / 1000000000 := by
  obtain ⟨bS1, bS2⟩ := fl53_bounds q hq0
  have hs0 : 0 ≤ fl53 q := fl53_nonneg q hq0
  have hcs0 : 0 ≤ c * fl53 q := mul_nonneg hc0 hs0
  obtain ⟨bV1, bV2⟩ := fl53_bounds _ hcs0
  have ha1 : (0 : ℚ) < 2 ^ (-53 : ℤ) := zpow_pos (by norm_num) _
  have ha2 : (2 : ℚ) ^ (-53 : ℤ) ≤ 1 / 1000000000000000 := by norm_num
  have hb1 : (0 : ℚ) < 2 ^ (-1075 : ℤ) := zpow_pos (by norm_num) _
  have hb3 : (1099511627776 : ℚ) * 2 ^ (-1075 : ℤ) ≤ 2 ^ (-53 : ℤ) := by
    have h1 : (1099511627776 : ℚ) * 2 ^ (-1075 : ℤ) = 2 ^ (-1035 : ℤ) := by
      rw [show (1099511627776 : ℚ) = 2 ^ (40 : ℤ) by norm_num,
        ← zpow_add₀ (two_ne_zero : (2 : ℚ) ≠ 0)]
      norm_num
    rw [h1]
    exact zpow_le_zpow_right₀ (by norm_num) (by norm_num)
  have hp1 := mul_le_mul_of_nonneg_left bS2 hc0
  have hp2 := mul_le_mul_of_nonneg_left bS1 hc0
  have hq1 := mul_le_mul_of_nonneg_right hcq ha1.le
  have hq2 := mul_nonneg (mul_nonneg hc0 hq0) ha1.le
  have hcb1 := mul_le_mul_of_nonneg_right hc hb1.le
  have hcb2 := mul_nonneg hc0 hb1.le
  generalize (2 : ℚ) ^ (-53 : ℤ) = a at bS1 bS2 bV1 bV2 ha1 ha2 hb3 hq1 hq2
  generalize (2 : ℚ) ^ (-1075 : ℤ) = b at bS1 bS2 bV1 bV2 hb1 hb3 hcb1 hcb2
  have hcs641 : c * fl53 q ≤ 641 := by
    nlinarith [hp1, hcq, hq1, hcb1, hb3, ha2, hb1]
  have hv1 := mul_le_mul_of_nonneg_right hcs641 ha1.le
  have hv2 := mul_nonneg hcs0 ha1.le
  constructor
  · nlinarith [bV1, hp2, hq1, hq2, hcb1, hcb2, hb3, ha2, hb1, hv1, hv2]
  · nlinarith [bV2, hp1, hq1, hq2, hcb1, hcb2, hb3, ha2, hb1, hv1, hv2]

/-- C8 (amended): images at or under the 640 cap keep their dimensions;
above the cap (for dimensions up to 2^40) the longer dimension becomes
639 or 640 — exactly 640 only up to the plus-or-minus-1 float64
truncation the claim itself allows — and the shorter dimension is within
1 of the exact scaling `shorter * 640 / longer`; the aspect ratio is
preserved within 1 percent whenever the exactly scaled shorter dimension
is at least 101 pixels, but the truncation can exceed the 1 percent
bound for extreme aspect ratios (see the counterexample).  Stated for
`w ≤ h`; the code is symmetric in the two dimensions. -/
theorem resize_dims_spec (w h : ℕ) (hwh : w ≤ h) (hcap : h ≤ 2 ^ 40) :
    (h ≤ 640 → resize_dims w h = (w, h)) ∧
      (640 < h →
        (639 ≤ (resize_dims w h).2 ∧ (resize_dims w h).2 ≤ 640) ∧
          ((w : ℚ) * 640 / (h : ℚ) - 1 - 1 / 1000000000
              < ((resize_dims w h).1 : ℚ) ∧
            ((resize_dims w h).1 : ℚ)
              ≤ (w : ℚ) * 640 / (h : ℚ) + 1 / 1000000000) ∧
          ((101 : ℚ) ≤ (w : ℚ) * 640 / (h : ℚ) →
            99 / 100 * ((w : ℚ) / (h : ℚ))
                ≤ ((resize_dims w h).1 : ℚ) / ((resize_dims w h).2 : ℚ) ∧
              ((resize_dims w h).1 : ℚ) / ((resize_dims w h).2 : ℚ)
                ≤ 101 / 100 * ((w : ℚ) / (h : ℚ)))) := by
  have hmax : max h w = h := max_eq_left hwh
  constructor
  · intro hsmall
    rw [resize_dims, hmax, if_neg (by omega)]
  · intro hbig
    have hh0 : (0 : ℚ) < (h : ℚ) := by
      have : 0 < h := by omega
      exact_mod_cast this
    have hmaxq : max (h : ℚ) (w : ℚ) = (h : ℚ) :=
      max_eq_left (by exact_mod_cast hwh)
    have hrw : resize_dims w h
        = (Int.toNat ⌊fl53 ((w : ℚ) * fl53 (640 / (h : ℚ)))⌋,
           Int.toNat ⌊fl53 ((h : ℚ) * fl53 (640 / (h : ℚ)))⌋) := by
      rw [resize_dims, hmax, hmaxq, if_pos hbig]
    rw [hrw]
    have hq0 : (0 : ℚ) ≤ 640 / (h : ℚ) := by positivity
    have hhc : (h : ℚ) ≤ 1099511627776 := by
      have hn : h ≤ 1099511627776 := by
        calc h ≤ 2 ^ 40 := hcap
          _ = 1099511627776 := by norm_num
      exact_mod_cast hn
    have hwc : (w : ℚ) ≤ 1099511627776 :=
      le_trans (by exact_mod_cast hwh) hhc
    have hid : (h : ℚ) * (640 / (h : ℚ)) = 640 := by
      field_simp
    obtain ⟨hU1, hU2⟩ := two_round_bounds (h : ℚ) (640 / (h : ℚ))
      (by positivity) hhc hq0 (le_of_eq hid)
    rw [hid] at hU1 hU2
    have hwq : (w : ℚ) * (640 / (h : ℚ)) = (w : ℚ) * 640 / (h : ℚ) := by
      ring
    have hx640 : (w : ℚ) * (640 / (h : ℚ)) ≤ 640 := by
      calc (w : ℚ) * (640 / (h : ℚ)) ≤ (h : ℚ) * (640 / (h : ℚ)) :=
            mul_le_mul_of_nonneg_right (by exact_mod_cast hwh) hq0
        _ = 640 := hid
    obtain ⟨hV1, hV2⟩ := two_round_bounds (w : ℚ) (640 / (h : ℚ))
      (by positivity) hwc hq0 hx640
    rw [hwq] at hV1 hV2
    have hV0 : 0 ≤ fl53 ((w : ℚ) * fl53 (640 / (h : ℚ))) :=
      fl53_nonneg _ (mul_nonneg (by positivity) (fl53_nonneg _ hq0))
    generalize fl53 ((w : ℚ) * fl53 (640 / (h : ℚ))) = V at hV1 hV2 hV0 ⊢
    generalize fl53 ((h : ℚ) * fl53 (640 / (h : ℚ))) = U at hU1 hU2 ⊢
    have hfV0 : 0 ≤ ⌊V⌋ := Int.floor_nonneg.mpr hV0
    have hfVle : (⌊V⌋ : ℚ) ≤ V := Int.floor_le V
    have hfVgt : V < ⌊V⌋ + 1 := Int.lt_floor_add_one V
    have hcV : ((Int.toNat ⌊V⌋ : ℕ) : ℚ) = (⌊V⌋ : ℚ) := by
      rw [← Int.cast_natCast, Int.toNat_of_nonneg hfV0]
    have hU639 : (639 : ℤ) ≤ ⌊U⌋ := by
      apply Int.le_floor.mpr
      push_cast
      linarith
    have hU640 : ⌊U⌋ ≤ 640 := by
      have hlt : ⌊U⌋ < 641 := by
        apply Int.floor_lt.mpr
        push_cast
        linarith
      omega
    have hcU : ((Int.toNat ⌊U⌋ : ℕ) : ℚ) = (⌊U⌋ : ℚ) := by
      rw [← Int.cast_natCast, Int.toNat_of_nonneg (by omega)]
    refine ⟨⟨?_, ?_⟩, ⟨?_, ?_⟩, ?_⟩
    · dsimp only
      omega
    · dsimp only
      omega
    · dsimp only
      rw [hcV]
      linarith
    · dsimp only
      rw [hcV]
      linarith
    · intro hx101
      dsimp only
      rw [hcV, hcU]
      have hBq : (639 : ℚ) ≤ (⌊U⌋ : ℚ) := by exact_mod_cast hU639
      have hBq2 : (⌊U⌋ : ℚ) ≤ 640 := by exact_mod_cast hU640
      have hB0 : (0 : ℚ) < (⌊U⌋ : ℚ) := by linarith
      have hwh640 : (w : ℚ) / (h : ℚ) = ((w : ℚ) * 640 / (h : ℚ)) / 640 := by
        field_simp
        ring
      rw [hwh640]
      have hc1 : (0 : ℚ) ≤ 99 / 100 * ((w : ℚ) * 640 / (h : ℚ) / 640) := by
        positivity
      have hc2 : (0 : ℚ) ≤ 101 / 100 * ((w : ℚ) * 640 / (h : ℚ) / 640) := by
        positivity
      have hm1 := mul_le_mul_of_nonneg_left hBq2 hc1
      have hm2 := mul_le_mul_of_nonneg_left hBq hc2
      constructor
      · rw [le_div_iff₀ hB0]
        nlinarith [hm1, hfVgt, hV1, hx101]
      · rw [div_le_iff₀ hB0]
        nlinarith [hm2, hfVle, hV2, hx101]

theorem resize_dims_spec_witness :
    (200 ≤ 1000 ∧ 1000 ≤ 2 ^ 40) ∧
      ((1000 ≤ 640 → resize_dims 200 1000 = (200, 1000)) ∧
        (640 < 1000 →
          (639 ≤ (resize_dims 200 1000).2 ∧ (resize_dims 200 1000).2 ≤ 640) ∧
            (((200 : ℕ) : ℚ) * 640 / ((1000 : ℕ) : ℚ) - 1 - 1 / 1000000000
                < ((resize_dims 200 1000).1 : ℚ) ∧
              ((resize_dims 200 1000).1 : ℚ)
                ≤ ((200 : ℕ) : ℚ) * 640 / ((1000 : ℕ) : ℚ) + 1 / 1000000000) ∧
            ((101 : ℚ) ≤ ((200 : ℕ) : ℚ) * 640 / ((1000 : ℕ) : ℚ) →
              99 / 100 * (((200 : ℕ) : ℚ) / ((1000 : ℕ) : ℚ))
                  ≤ ((resize_dims 200 1000).1 : ℚ)
                    / ((resize_dims 200 1000).2 : ℚ) ∧
                ((resize_dims 200 1000).1 : ℚ)
                    / ((resize_dims 200 1000).2 : ℚ)
                  ≤ 101 / 100 * (((200 : ℕ) : ℚ) / ((1000 : ℕ) : ℚ))))) :=
  ⟨⟨by norm_num, by norm_num⟩,
    resize_dims_spec 200 1000 (by norm_num) (by norm_num)⟩

/-! ### Procedural generator (src/backend/utils/procedural_generator.py)

`generate_unseen_geometry` wraps all of its work in one `try` block
(lines 36-97) and its `except` clause (lines 99-102) returns the
unmodified `base_mesh`.  The helper generators (`_generate_back_walls`,
`_generate_floor`, `_generate_side_walls`, `_generate_interior_elements`,
`_generate_ceiling`) catch their own exceptions internally and degrade to
`None` / empty lists, so they enter the embedding as optional sub-mesh
data.  The three operations that can still raise inside the outer `try` —
the scene detection statistics, each `enhanced_mesh += proc_mesh`
concatenation (which in the deployed pipeline receives a trimesh base and
open3d sub-meshes and raises a type error), and the final
`remove_duplicated_*` / `compute_vertex_normals` cleanup — are modelled
as `Except`-valued parameters.  Meshes are immutable vertex/face buffers,
matching trimesh concatenation, which builds a fresh object rather than
mutating the base in place. -/

/-- A vertex/face buffer mesh value. -/
structure PMesh : Type where
  verts : List Vec3
  faces : List Face3
deriving DecidableEq

/-- Values of the room_complexity option read by `options.get` at line 38. -/
inductive Complexity : Type
  | low
  | medium
  | high
deriving DecidableEq

/-- Scene strings returned by `ProceduralGenerator._detect_scene_type`
(lines 104-136) plus `factory`, which the gates test for. -/
inductive ProcScene : Type
  | flat_wall
  | exterior
  | landscape
  | interior
  | building
  | factory
deriving DecidableEq

/-- The options record read at lines 38-40. -/
structure GenOptions : Type where
  room_complexity : Complexity
  wall_thickness : ℚ
  generate_interiors : Bool

/-- An exception inside the outer `try` block. -/
inductive StepErr : Type
  | failed
deriving DecidableEq

/-- The abstracted fallible collaborators and helper outputs of
`generate_unseen_geometry`. -/
structure ProcEnv : Type where
  scene : Except StepErr ProcScene
  back_walls : Option PMesh
  floor_slab : Option PMesh
  side_walls : List PMesh
  interior_elems : List PMesh
  ceiling : Option PMesh
  combine : PMesh → PMesh → Except StepErr PMesh
  cleanup : PMesh → Except StepErr PMesh

/-- The `procedural_meshes` list accumulated at lines 51-83, in source
order: back walls (gated on `generate_interiors`), the floor
(unconditional), side walls (gated on `generate_interiors`), interior
elements (gated on `generate_interiors` and medium/high complexity), and
the ceiling (gated on `generate_interiors` and an interior-like scene). -/
def proc_meshes (env : ProcEnv) (opts : GenOptions) (scene : ProcScene) :
    List PMesh :=
  (if opts.generate_interiors then env.back_walls.toList else []) ++
    env.floor_slab.toList ++
    (if opts.generate_interiors then env.side_walls else []) ++
    (if opts.generate_interiors ∧
        (opts.room_complexity = Complexity.medium ∨
          opts.room_complexity = Complexity.high)
      then env.interior_elems else []) ++
    (if opts.generate_interiors ∧
        (scene = ProcScene.interior ∨ scene = ProcScene.factory ∨
          scene = ProcScene.building)
      then env.ceiling.toList else [])

/-- The body of the `try` block (lines 36-97): detect the scene, fold the
`enhanced_mesh += proc_mesh` loop over the accumulated sub-meshes
starting from the base mesh, then run the duplicate-removal / normal
recomputation cleanup. -/
def enhance_steps (base : PMesh) (env : ProcEnv) (opts : GenOptions) :
    Except StepErr PMesh := do
  let scene ← env.scene
  let enhanced ← (proc_meshes env opts scene).foldlM env.combine base
  env.cleanup enhanced

/-- Embeds `ProceduralGenerator.generate_unseen_geometry` (lines 21-102): run
the `try` block; on any exception return the base mesh (lines 99-102). -/
def generate_unseen_geometry (base : PMesh) (env : ProcEnv)
    (opts : GenOptions) : PMesh :=
  match enhance_steps base env opts with
  | Except.ok m => m
  | Except.error _ => base

/-- C10: `generate_unseen_geometry` never propagates an exception and is
atomic on failure — whenever any internal enhancement step raises, it
returns the original base mesh unchanged, and otherwise it returns the
successfully enhanced mesh (the base with the procedural sub-meshes
folded in and cleaned up). -/
theorem generate_unseen_geometry_total (base : PMesh) (env : ProcEnv)
    (opts : GenOptions) :
    (∀ e, enhance_steps base env opts = Except.error e →
        generate_unseen_geometry base env opts = base) ∧
      (∀ m, enhance_steps base env opts = Except.ok m →
        generate_unseen_geometry base env opts = m) := by
  constructor <;> intro x h <;> simp [generate_unseen_geometry, h]

theorem generate_unseen_geometry_total_witness :
    generate_unseen_geometry ⟨[(0, 0, 0)], []⟩
        ⟨Except.error StepErr.failed, none, none, [], [], none,
          fun a b => Except.ok ⟨a.verts ++ b.verts, a.faces ++ b.faces⟩,
          fun m => Except.ok m⟩
        ⟨Complexity.medium, 3 / 10, true⟩
      = ⟨[(0, 0, 0)], []⟩ :=
  (generate_unseen_geometry_total ⟨[(0, 0, 0)], []⟩
      ⟨Except.error StepErr.failed, none, none, [], [], none,
        fun a b => Except.ok ⟨a.verts ++ b.verts, a.faces ++ b.faces⟩,
        fun m => Except.ok m⟩
      ⟨Complexity.medium, 3 / 10, true⟩).1 StepErr.failed rfl

end Allspace
